import Mathlib

/-!
Verification of the invoice-extraction normalizer of this repository
(source: src/app.py).

Modelling conventions:
* Python strings are `String` / `List Char`; Python `None` is `Option.none`.
* Python floats are modelled as exact rationals `ℚ`; every claim below
  compares values produced by the same decimal parse, so binary rounding
  plays no role in any statement.
* An attribute of a provider object that may be absent is modelled as
  `Option (Option String)`: the outer layer says whether the attribute is
  present at all, the inner layer is its content (possibly `None`).
  `getattr` with a default therefore returns the inner layer when the
  outer layer is `some`, without looking at the default.
* A raised `HTTPException` is an `HttpErr` value; an uncaught Python
  exception (`AttributeError` on a missing `.items`, `NameError` on an
  unbound local) is a `PyErr` value.
-/

namespace InvParser

/-- Whitespace recognised by the model of Python `str.strip` (the ASCII
whitespace characters; no claim involves non-ASCII whitespace). -/
def isPySpace (c : Char) : Bool :=
  c == ' ' || c == '\t' || c == '\n' || c == '\r' || c == '\x0b' || c == '\x0c'

/-- Model of Python `str.strip()`: drop leading and trailing whitespace. -/
def pyStrip (cs : List Char) : List Char :=
  ((cs.dropWhile isPySpace).reverse.dropWhile isPySpace).reverse

/-- Composition of `value.replace("$", "").replace(",", "")` from
`amount_format`: removing every dollar sign and every comma. -/
def stripMoneyChars (cs : List Char) : List Char :=
  cs.filter (fun c => !(c == '$' || c == ','))

/-- ASCII lower-casing of one character (Python's `str.lower` restricted
to ASCII, which covers every string any claim mentions). -/
def asciiLower (c : Char) : Char :=
  if c.toNat ≥ 65 && c.toNat ≤ 90 then Char.ofNat (c.toNat + 32) else c

/-- Numeric value of a decimal digit character. -/
def digitVal (c : Char) : Nat := c.toNat - 48

/-- Value of a run of decimal digit characters. -/
def digitsToNat (ds : List Char) : Nat :=
  ds.foldl (fun a c => 10 * a + digitVal c) 0

/-- Split a leading optional sign off a numeric literal. -/
def parseSign : List Char → ℤ × List Char
  | '+' :: r => (1, r)
  | '-' :: r => (-1, r)
  | cs => (1, cs)

/-- Parse the exponent part of a float literal: either nothing at all, or
`e`/`E` followed by an optional sign and a nonempty digit run ending the
string. -/
def parseExpPart : List Char → Option ℤ
  | [] => some 0
  | c :: r =>
    if c == 'e' || c == 'E' then
      let sr := parseSign r
      let dr := sr.2.span Char.isDigit
      if dr.1.isEmpty || !dr.2.isEmpty then none
      else some (sr.1 * (digitsToNat dr.1 : ℤ))
    else none

/-- Model of CPython `float(string)` restricted to finite decimal
literals (optional surrounding whitespace, optional sign, digits with an
optional decimal point, optional exponent).  The `inf`/`nan` words and
underscore digit separators accepted by CPython are not modelled; no
claim involves them.  The result is a mantissa and a power-of-ten
exponent, so the parse itself stays in decidable integer arithmetic. -/
def pyFloatSci (cs0 : List Char) : Option (ℤ × ℤ) :=
  let cs := pyStrip cs0
  let sr := parseSign cs
  let ir := sr.2.span Char.isDigit
  match ir.2 with
  | '.' :: cs3 =>
    let fr := cs3.span Char.isDigit
    if ir.1.isEmpty && fr.1.isEmpty then none
    else
      match parseExpPart fr.2 with
      | some e => some (sr.1 * (digitsToNat (ir.1 ++ fr.1) : ℤ), e - fr.1.length)
      | none => none
  | _ =>
    if ir.1.isEmpty then none
    else
      match parseExpPart ir.2 with
      | some e => some (sr.1 * (digitsToNat ir.1 : ℤ), e)
      | none => none

/-- Exact rational value of a mantissa-exponent pair. -/
def ratOfSci (m : ℤ) (e : ℤ) : ℚ := (m : ℚ) * 10 ^ e

/-- A Python value stored in the extraction dictionaries: None, a
string, a number, or the reconstructed list of line-item dictionaries. -/
inductive PVal : Type where
  | pnone : PVal
  | str : String → PVal
  | num : ℚ → PVal
  | items : List (List (Option String × PVal)) → PVal

/-- Embedding of `amount_format` from src/app.py: falsy input (None or
the empty string) gives the empty string; otherwise every dollar sign
and comma is removed, whitespace is stripped and the residue is parsed
with `float`, the original input being returned unchanged when the parse
fails (the bare `except` swallows every exception, so the function is
total). -/
def amount_format : Option String → PVal
  | none => PVal.str ""
  | some v =>
    if v = "" then PVal.str ""
    else
      match pyFloatSci (pyStrip (stripMoneyChars v.data)) with
      | some me => PVal.num (ratOfSci me.1 me.2)
      | none => PVal.str v

/-- Lower-cased month abbreviations, in month order, as matched by the
strptime directive for the abbreviated month name. -/
def monthAbbrevs : List (List Char) :=
  [['j','a','n'], ['f','e','b'], ['m','a','r'], ['a','p','r'],
   ['m','a','y'], ['j','u','n'], ['j','u','l'], ['a','u','g'],
   ['s','e','p'], ['o','c','t'], ['n','o','v'], ['d','e','c']]

/-- Index lookup among the month abbreviations. -/
def monthLookup : List (List Char) → Nat → List Char → Option Nat
  | [], _, _ => none
  | a :: r, i, key => if a == key then some (i + 1) else monthLookup r (i + 1) key

/-- Read one month abbreviation (case-insensitively) at the head of the
input, returning the month number and the rest. -/
def parseMonth (cs : List Char) : Option (Nat × List Char) :=
  match cs with
  | c1 :: c2 :: c3 :: rest =>
    match monthLookup monthAbbrevs 0 [asciiLower c1, asciiLower c2, asciiLower c3] with
    | some m => some (m, rest)
    | none => none
  | _ => none

/-- Consume one or more whitespace characters (strptime turns a literal
space in the format into one-or-more-whitespace). -/
def parseWs1 (cs : List Char) : Option (List Char) :=
  let p := cs.span isPySpace
  if p.1.isEmpty then none else some p.2

/-- Candidate parses of the day field, in the order the strptime regex
alternation tries them: `3[01]`, then `[12]` digit, then `0[1-9]`, then
a single nonzero digit. -/
def dayCands : List Char → List (Nat × List Char)
  | c1 :: c2 :: rest =>
    (if c1 == '3' && (c2 == '0' || c2 == '1') then [(30 + digitVal c2, rest)] else []) ++
    (if (c1 == '1' || c1 == '2') && c2.isDigit then [(10 * digitVal c1 + digitVal c2, rest)] else []) ++
    (if c1 == '0' && (c2.isDigit && c2 != '0') then [(digitVal c2, rest)] else []) ++
    (if c1.isDigit && c1 != '0' then [(digitVal c1, c2 :: rest)] else [])
  | [c1] => if c1.isDigit && c1 != '0' then [(digitVal c1, [])] else []
  | [] => []

/-- Read exactly four decimal digits as the year. -/
def parseYear4 : List Char → Option (Nat × List Char)
  | a :: b :: c :: d :: rest =>
    if a.isDigit && b.isDigit && c.isDigit && d.isDigit then
      some (digitsToNat [a, b, c, d], rest)
    else none
  | _ => none

/-- After a day candidate: whitespace, a four-digit year, then the end
of the string (strptime requires the whole input to be consumed). -/
def parseTail (d : Nat) (cs : List Char) : Option (Nat × Nat) :=
  match parseWs1 cs with
  | none => none
  | some cs1 =>
    match parseYear4 cs1 with
    | some (y, []) => some (d, y)
    | _ => none

/-- First successful application of `f` along a list. -/
def firstSome {α β : Type} (f : α → Option β) : List α → Option β
  | [] => none
  | a :: r =>
    match f a with
    | some b => some b
    | none => firstSome f r

/-- Gregorian leap-year test, as used by `datetime`. -/
def isLeapYear (y : Nat) : Bool :=
  y % 4 == 0 && (y % 100 != 0 || y % 400 == 0)

/-- Number of days in a month, as validated by the `datetime`
constructor. -/
def daysInMonth (m y : Nat) : Nat :=
  if m = 2 then (if isLeapYear y then 29 else 28)
  else if m = 4 ∨ m = 6 ∨ m = 9 ∨ m = 11 then 30
  else 31

/-- Embedding of `datetime.strptime(s, "%b %d %Y")` on an input with no
surrounding whitespace: month abbreviation, whitespace, day (with the
regex backtracking over the day alternatives), whitespace, four-digit
year, end of input; then the calendar validation performed by the
`datetime` constructor (year at least 1, day within the month). -/
def parseBDY (cs : List Char) : Option (Nat × Nat × Nat) :=
  match parseMonth cs with
  | none => none
  | some (m, cs1) =>
    match parseWs1 cs1 with
    | none => none
    | some cs2 =>
      match firstSome (fun dc => parseTail dc.1 dc.2) (dayCands cs2) with
      | none => none
      | some (d, y) =>
        if 1 ≤ y ∧ 1 ≤ d ∧ d ≤ daysInMonth m y then some (y, m, d) else none

/-- Decimal digit character of `n % 10`. -/
def digitChar (n : Nat) : Char := Char.ofNat (48 + n % 10)

/-- Two-digit zero-padded rendering. -/
def pad2 (n : Nat) : List Char := [digitChar (n / 10), digitChar n]

/-- Four-digit zero-padded rendering. -/
def pad4 (n : Nat) : List Char :=
  [digitChar (n / 1000), digitChar (n / 100), digitChar (n / 10), digitChar n]

/-- ISO 8601 rendering of midnight UTC on a given date, as produced by
`datetime.isoformat()` after attaching `timezone.utc`. -/
def isoMidnightUtc (y m d : Nat) : String :=
  String.mk (pad4 y ++ '-' :: pad2 m ++ '-' :: pad2 d ++ "T00:00:00+00:00".data)

/-- Embedding of `format_date` from src/app.py: falsy input gives the
empty string; otherwise the stripped input is parsed with strptime and
rendered as an ISO timestamp at midnight UTC, the original input being
returned unchanged when strptime (or the date validation) raises
`ValueError`. -/
def format_date : Option String → String
  | none => ""
  | some s =>
    if s = "" then ""
    else
      match parseBDY (pyStrip s.data) with
      | some (y, m, d) => isoMidnightUtc y m d
      | none => s

/-- Label object of a field: a `name` attribute and a `confidence`
attribute, either of which may be `None`. -/
structure FieldLabel where
  name : Option String
  confidence : Option ℚ

/-- Value object of a field.  It carries the two alternative scalar
attributes probed by `get_value` (each possibly absent, and possibly
present with content `None`) and the `items` attribute used by the
composite fields; an item is again a pair of an optional label and an
optional value object. -/
inductive FVal : Type where
  | mk : Option (Option String) → Option (Option String) →
      List (Option FieldLabel × Option FVal) → FVal

/-- The `text` attribute slot of a value object. -/
def FVal.text : FVal → Option (Option String)
  | FVal.mk t _ _ => t

/-- The `value` attribute slot of a value object. -/
def FVal.value : FVal → Option (Option String)
  | FVal.mk _ v _ => v

/-- The `items` attribute of a value object. -/
def FVal.items : FVal → List (Option FieldLabel × Option FVal)
  | FVal.mk _ _ l => l

/-- A field node: `field_label` and `field_value`, each possibly None. -/
abbrev DocField := Option FieldLabel × Option FVal

/-- Embedding of `get_value` from src/app.py: None for a falsy value
object; otherwise `getattr` on `text` with a `getattr` on `value` as
default.  An attribute that is present but set to None is returned as
None without falling through to the other attribute. -/
def get_value : Option FVal → Option String
  | none => none
  | some v =>
    match v.text with
    | some t => t
    | none =>
      match v.value with
      | some w => w
      | none => none

/-- Insertion-ordered dictionary update with Python `dict` semantics: an
existing key keeps its position and receives the new value, a new key is
appended at the end. -/
def dinsert {α β : Type} [DecidableEq α] (d : List (α × β)) (k : α) (v : β) :
    List (α × β) :=
  if k ∈ d.map Prod.fst then
    d.map (fun p => if p.1 = k then (k, v) else p)
  else d ++ [(k, v)]

/-- Key list of a dictionary. -/
def dkeys {α β : Type} (d : List (α × β)) : List α := d.map Prod.fst

/-- Top-level field name extraction, line 74 of src/app.py:
`field.field_label.name if field.field_label and field.field_label.name
else None`.  An empty name is falsy in Python and collapses to None. -/
def fieldNameOf (lbl : Option FieldLabel) : Option String :=
  match lbl with
  | some l =>
    match l.name with
    | some n => if n = "" then none else some n
    | none => none
  | none => none

/-- Confidence extraction, line 95 of src/app.py, with its
`is not None` test: the default 0.0 applies only when the label or its
confidence attribute is missing, never to an explicit 0.0. -/
def fieldConfOf (lbl : Option FieldLabel) : ℚ :=
  match lbl with
  | some l =>
    match l.confidence with
    | some c => c
    | none => 0
  | none => 0

/-- Sub-field key inside an item, line 109 of src/app.py:
`sub.field_label.name if sub.field_label else None` — unlike the
top-level name there is no truthiness test on the name itself, so an
empty name is kept as a key. -/
def subKeyOf (lbl : Option FieldLabel) : Option String :=
  match lbl with
  | some l => l.name
  | none => none

/-- The sub-field keys receiving currency coercion inside line items. -/
def itemMoneyKeys : List (Option String) :=
  [some "Quantity", some "UnitPrice", some "Amount"]

/-- The top-level field names receiving currency coercion. -/
def topMoneyNames : List String :=
  ["InvoiceTotal", "SubTotal", "ShippingCost", "Amount", "UnitPrice", "AmountDue"]

/-- Lift of the tolerant accessor result into a stored Python value. -/
def toPVal : Option String → PVal
  | none => PVal.pnone
  | some s => PVal.str s

/-- Value stored for one sub-field of a line item: the tolerant accessor
result, currency-coerced for the three money columns. -/
def subStoreVal (sub : DocField) : PVal :=
  if itemMoneyKeys.contains (subKeyOf sub.1) then amount_format (get_value sub.2)
  else toPVal (get_value sub.2)

/-- One line-item dictionary. -/
abbrev Item := List (Option String × PVal)

/-- Embedding of the inner loop of the Items branch (lines 105 to 118 of
src/app.py) building `single_item`. -/
def buildItem (subs : List DocField) : Item :=
  subs.foldl (fun d sub => dinsert d (subKeyOf sub.1) (subStoreVal sub)) []

/-- Python exceptions that escape the handler uncaught. -/
inductive PyErr : Type where
  | attributeError : PyErr
  | nameError : PyErr
deriving DecidableEq

/-- Embedding of the outer loop of the Items branch: each item node must
itself expose a `field_value` (otherwise Python raises AttributeError on
`.items`), and contributes exactly one dictionary, in order. -/
def buildItems : List DocField → Except PyErr (List Item)
  | [] => Except.ok []
  | (_, none) :: _ => Except.error PyErr.attributeError
  | (_, some v) :: rest =>
    match buildItems rest with
    | Except.ok l => Except.ok (buildItem v.items :: l)
    | Except.error e => Except.error e

/-- The two working dictionaries of a walk: `data` and
`data_confidence`. -/
structure WalkState where
  data : List (Option String × PVal)
  conf : List (Option String × ℚ)

/-- Value written into `data` for one top-level field: the items
reconstruction for Items (which needs `field.field_value` to be
present), date coercion for InvoiceDate, currency coercion for the
money fields, and the raw tolerant-accessor text otherwise.  The three
name tests of the source are mutually exclusive, so testing Items first
is faithful. -/
def fieldStoreVal (f : DocField) : Except PyErr PVal :=
  if fieldNameOf f.1 = some "Items" then
    match f.2 with
    | none => Except.error PyErr.attributeError
    | some v =>
      match buildItems v.items with
      | Except.ok l => Except.ok (PVal.items l)
      | Except.error e => Except.error e
  else if fieldNameOf f.1 = some "InvoiceDate" then
    Except.ok (PVal.str (format_date (get_value f.2)))
  else
    match fieldNameOf f.1 with
    | some n =>
      if topMoneyNames.contains n then Except.ok (amount_format (get_value f.2))
      else Except.ok (toPVal (get_value f.2))
    | none => Except.ok (toPVal (get_value f.2))

/-- One iteration of the field loop: compute the value, write `data`,
and write `data_confidence` for every name except Items. -/
def processField (st : WalkState) (f : DocField) : Except PyErr WalkState :=
  match fieldStoreVal f with
  | Except.error e => Except.error e
  | Except.ok v =>
    if fieldNameOf f.1 = some "Items" then
      Except.ok ⟨dinsert st.data (fieldNameOf f.1) v, st.conf⟩
    else
      Except.ok ⟨dinsert st.data (fieldNameOf f.1) v,
        dinsert st.conf (fieldNameOf f.1) (fieldConfOf f.1)⟩

/-- The field loop over one page. -/
def walkFields (st : WalkState) : List DocField → Except PyErr WalkState
  | [] => Except.ok st
  | f :: rest =>
    match processField st f with
    | Except.ok st1 => walkFields st1 rest
    | Except.error e => Except.error e

/-- The page loop; a page whose `document_fields` is falsy (None or the
empty list) contributes nothing and is modelled by the empty list. -/
def walkPages (st : WalkState) : List (List DocField) → Except PyErr WalkState
  | [] => Except.ok st
  | p :: rest =>
    match walkFields st p with
    | Except.ok st1 => walkPages st1 rest
    | Except.error e => Except.error e

/-- An HTTPException value: status code and detail message. -/
structure HttpErr where
  status : Nat
  detail : String
deriving DecidableEq

/-- The HTTPException raised by the PDF upload validation, lines 28 to
31 of src/app.py. -/
def pdfValidationErr : HttpErr :=
  ⟨400, "Invalid document. Please upload a valid PDF invoice with high confidence."⟩

/-- The HTTPException raised by the low-confidence document validation,
lines 134 to 137 of src/app.py. -/
def lowConfidenceErr : HttpErr :=
  ⟨400, "Invalid document. Please upload a valid PDF invoice with high confidence."⟩

/-- The HTTPException raised when the provider call throws, lines 58 to
61 of src/app.py. -/
def serviceUnavailableErr : HttpErr :=
  ⟨503, "The service is currently unavailable. Please try again later."⟩

/-- Embedding of the detected-document-types loop, lines 130 to 137 of
src/app.py: `confidence_file` is assigned each record's confidence in
turn and any value below 0.9 raises at once.  The accumulator is `none`
exactly while the local `confidence_file` is still unbound.  (The
threshold is the float literal 0.9, modelled as the exact rational
9/10; no claim involves a confidence in the rounding gap.) -/
def docTypesLoop (acc : Option ℚ) : List ℚ → Except HttpErr (Option ℚ)
  | [] => Except.ok acc
  | c :: rest =>
    if c < 9/10 then Except.error lowConfidenceErr
    else docTypesLoop (some c) rest

/-- The upload as the validation sees it: the declared content type
(possibly absent) and the filename. -/
structure Upload where
  contentType : Option String
  filename : String

/-- The provider response: pages of field nodes and the detected
document-type confidences. -/
structure ProviderResponse where
  pages : List (List DocField)
  detectedTypes : List ℚ

/-- Outcome of a failed request: an HTTPException or an uncaught Python
exception. -/
inductive Outcome : Type where
  | http : HttpErr → Outcome
  | pyError : PyErr → Outcome
deriving DecidableEq

/-- The result dictionary handed to `save_inv_extraction` and returned
to the caller, lines 140 to 148 of src/app.py. -/
structure ExtractResult where
  confidence : ℚ
  data : List (Option String × PVal)
  dataConfidence : List (Option String × ℚ)

/-- The PDF upload test of lines 24 and 25 of src/app.py: declared PDF
content type, or a filename whose lower-casing ends in `.pdf`. -/
def pdfCheck (u : Upload) : Bool :=
  u.contentType == some "application/pdf" ||
    List.isSuffixOf ".pdf".data (u.filename.data.map asciiLower)

/-- Embedding of the body of the extract endpoint after the upload
validation passed: provider call (an exception becomes the 503 error),
page walking, document validation, construction of the result (reading
`confidence_file`, which is an unbound local — NameError — when no
document type record was seen), and the save call.  The second
component records the arguments of `save_inv_extraction` calls. -/
def extractBody (provider : Except Unit ProviderResponse) :
    Except Outcome ExtractResult × List ExtractResult :=
  match provider with
  | Except.error _ => (Except.error (Outcome.http serviceUnavailableErr), [])
  | Except.ok resp =>
    match walkPages ⟨[], []⟩ resp.pages with
    | Except.error e => (Except.error (Outcome.pyError e), [])
    | Except.ok st =>
      match docTypesLoop none resp.detectedTypes with
      | Except.error e => (Except.error (Outcome.http e), [])
      | Except.ok none => (Except.error (Outcome.pyError PyErr.nameError), [])
      | Except.ok (some c) => (Except.ok ⟨c, st.data, st.conf⟩, [⟨c, st.data, st.conf⟩])

/-- Embedding of the whole extract endpoint. -/
def extract (u : Upload) (provider : Except Unit ProviderResponse) :
    Except Outcome ExtractResult × List ExtractResult :=
  if pdfCheck u then extractBody provider
  else (Except.error (Outcome.http pdfValidationErr), [])

/-- Placeholder-free read of an item value object known to be present
(the placeholder is irrelevant under that hypothesis). -/
def fvalOrDummy (o : Option FVal) : FVal := o.getD (FVal.mk none none [])

/-- The key-set invariant relating the two dictionaries of a walk. -/
def keyInv (st : WalkState) : Prop :=
  ∀ k, k ∈ dkeys st.conf ↔ (k ∈ dkeys st.data ∧ k ≠ some "Items")

/-- Sample item nodes used to witness the line-item properties: one row
with a money column and a text column, and one row with all-null
sub-values. -/
def sampleNodes : List DocField :=
  [(none, some (FVal.mk none none
      [(some ⟨some "Amount", none⟩, some (FVal.mk (some (some "$10.00")) none [])),
       (some ⟨some "Description", none⟩, some (FVal.mk none (some (some "pen")) []))])),
   (none, some (FVal.mk none none [(some ⟨none, none⟩, none)]))]

/-- Sample page list used to witness the key-set invariant: one plain
field and one Items field. -/
def samplePages : List (List DocField) :=
  [[(some ⟨some "A", none⟩, none),
    (some ⟨some "Items", none⟩, some (FVal.mk none none []))]]

/-- The walk state produced by `samplePages`. -/
def sampleWalkSt : WalkState :=
  ⟨[(some "A", PVal.pnone), (some "Items", PVal.items [])], [(some "A", 0)]⟩

end InvParser

namespace InvParser

/-- Membership in the key list after a dictionary write: the written key
joins the key set, nothing else changes. -/
theorem dkeys_dinsert {α β : Type} [DecidableEq α] (d : List (α × β)) (k' : α)
    (v : β) (k : α) :
    k ∈ dkeys (dinsert d k' v) ↔ (k ∈ dkeys d ∨ k = k') := by
  unfold dinsert dkeys
  by_cases hc : k' ∈ d.map Prod.fst
  · rw [if_pos hc]
    have hmap : (d.map (fun p => if p.1 = k' then (k', v) else p)).map Prod.fst
        = d.map Prod.fst := by
      rw [List.map_map]
      apply List.map_congr_left
      intro p _
      by_cases hp : p.1 = k'
      · simp [hp]
      · simp [hp]
    rw [hmap]
    constructor
    · exact fun h => Or.inl h
    · rintro (h | h)
      · exact h
      · subst h; exact hc
  · rw [if_neg hc]
    simp [List.map_append]

/-- A dictionary write grows the dictionary by at most one entry. -/
theorem dinsert_length_le {α β : Type} [DecidableEq α] (d : List (α × β))
    (k : α) (v : β) :
    (dinsert d k v).length ≤ d.length + 1 := by
  unfold dinsert
  by_cases hc : k ∈ d.map Prod.fst
  · rw [if_pos hc, List.length_map]; omega
  · rw [if_neg hc, List.length_append]; simp

/-- Bound on the item fold: at most one entry per processed sub-field. -/
theorem buildItem_go_length (subs : List DocField) (init : Item) :
    (subs.foldl (fun d sub => dinsert d (subKeyOf sub.1) (subStoreVal sub)) init).length
      ≤ init.length + subs.length := by
  induction subs generalizing init with
  | nil => simp
  | cons s rest ih =>
    simp only [List.foldl_cons, List.length_cons]
    have h1 := ih (dinsert init (subKeyOf s.1) (subStoreVal s))
    have h2 := dinsert_length_le init (subKeyOf s.1) (subStoreVal s)
    omega

/-- A reconstructed line item has at most as many keys as the item node
has sub-fields. -/
theorem buildItem_length_le (subs : List DocField) :
    (buildItem subs).length ≤ subs.length := by
  have h := buildItem_go_length subs []
  simpa [buildItem] using h

/-- The only HTTPException the document-validation loop can raise is the
fixed low-confidence one. -/
theorem docTypesLoop_error (types : List ℚ) :
    ∀ acc e, docTypesLoop acc types = Except.error e → e = lowConfidenceErr := by
  induction types with
  | nil =>
    intro acc e h
    simp [docTypesLoop] at h
  | cons c rest ih =>
    intro acc e h
    unfold docTypesLoop at h
    by_cases hc : c < 9/10
    · rw [if_pos hc] at h
      injection h with h1
      exact h1.symm
    · rw [if_neg hc] at h
      exact ih _ _ h

/-- The document-validation loop raises exactly when some detected
record has confidence below nine tenths. -/
theorem docTypesLoop_rejects_iff (types : List ℚ) :
    ∀ acc, (∃ e, docTypesLoop acc types = Except.error e) ↔ ∃ c ∈ types, c < 9/10 := by
  induction types with
  | nil =>
    intro acc
    constructor
    · rintro ⟨e, h⟩
      simp [docTypesLoop] at h
    · rintro ⟨c, hc, _⟩
      simp at hc
  | cons c rest ih =>
    intro acc
    unfold docTypesLoop
    by_cases hc : c < 9/10
    · rw [if_pos hc]
      constructor
      · intro _
        exact ⟨c, by simp, hc⟩
      · intro _
        exact ⟨lowConfidenceErr, rfl⟩
    · rw [if_neg hc]
      rw [ih (some c)]
      constructor
      · rintro ⟨x, hx, hlt⟩
        exact ⟨x, by simp [hx], hlt⟩
      · rintro ⟨x, hx, hlt⟩
        rcases List.mem_cons.mp hx with h | h
        · subst h; exact absurd hlt hc
        · exact ⟨x, h, hlt⟩

/-- When every record clears the threshold, the loop completes and the
final value of the confidence local is the last record (or the incoming
accumulator when there is no record). -/
theorem docTypesLoop_ok_last (types : List ℚ) :
    ∀ acc, (∀ c ∈ types, ¬ c < 9/10) →
      docTypesLoop acc types = Except.ok (types.getLast?.or acc) := by
  induction types with
  | nil => intro acc _; simp [docTypesLoop]
  | cons c rest ih =>
    intro acc hall
    unfold docTypesLoop
    rw [if_neg (hall c (by simp))]
    rw [ih (some c) (fun x hx => hall x (by simp [hx]))]
    cases rest with
    | nil => simp
    | cons d rest2 =>
      have hx : ∃ x, (d :: rest2).getLast? = some x := by
        cases h1 : (d :: rest2).getLast? with
        | some x => exact ⟨x, rfl⟩
        | none => simp at h1
      obtain ⟨x, hx⟩ := hx
      rw [List.getLast?_cons_cons, hx]
      rfl

/-- On item nodes that all expose a value object, the reconstructor
succeeds and returns exactly one dictionary per node, in order. -/
theorem buildItems_ok (nodes : List DocField) (h : ∀ n ∈ nodes, n.2 ≠ none) :
    buildItems nodes = Except.ok (nodes.map (fun n => buildItem (fvalOrDummy n.2).items)) := by
  induction nodes with
  | nil => rfl
  | cons n rest ih =>
    obtain ⟨lbl, fv⟩ := n
    cases fv with
    | none => exact absurd rfl (h (lbl, none) (by simp))
    | some v =>
      unfold buildItems
      rw [ih (fun x hx => h x (by simp [hx]))]
      rfl

/-- One field-loop iteration preserves the key-set invariant. -/
theorem processField_keyInv (st st1 : WalkState) (f : DocField)
    (hok : processField st f = Except.ok st1) (hinv : keyInv st) : keyInv st1 := by
  cases hsv : fieldStoreVal f with
  | error e =>
    simp only [processField, hsv] at hok
    exact Except.noConfusion hok
  | ok v =>
    simp only [processField, hsv] at hok
    by_cases hI : fieldNameOf f.1 = some "Items"
    · rw [if_pos hI] at hok
      injection hok with hok
      subst hok
      intro k
      show k ∈ dkeys st.conf ↔ _
      rw [hinv k]
      show _ ↔ (k ∈ dkeys (dinsert st.data (fieldNameOf f.1) v) ∧ _)
      rw [dkeys_dinsert, hI]
      by_cases hk : k = some "Items"
      · subst hk; simp
      · simp [hk]
    · rw [if_neg hI] at hok
      injection hok with hok
      subst hok
      intro k
      show k ∈ dkeys (dinsert st.conf (fieldNameOf f.1) (fieldConfOf f.1)) ↔
        (k ∈ dkeys (dinsert st.data (fieldNameOf f.1) v) ∧ _)
      rw [dkeys_dinsert, dkeys_dinsert]
      by_cases hk : k = fieldNameOf f.1
      · subst hk
        simp [hI]
      · simpa [hk] using hinv k

/-- The field loop preserves the key-set invariant. -/
theorem walkFields_keyInv (fs : List DocField) :
    ∀ st st1, walkFields st fs = Except.ok st1 → keyInv st → keyInv st1 := by
  induction fs with
  | nil =>
    intro st st1 h hi
    unfold walkFields at h
    injection h with h
    subst h
    exact hi
  | cons f rest ih =>
    intro st st1 h hi
    unfold walkFields at h
    cases hp : processField st f with
    | error e => rw [hp] at h; cases h
    | ok st2 =>
      rw [hp] at h
      exact ih _ _ h (processField_keyInv _ _ _ hp hi)

/-- The page loop preserves the key-set invariant. -/
theorem walkPages_keyInv (pages : List (List DocField)) :
    ∀ st st1, walkPages st pages = Except.ok st1 → keyInv st → keyInv st1 := by
  induction pages with
  | nil =>
    intro st st1 h hi
    unfold walkPages at h
    injection h with h
    subst h
    exact hi
  | cons p rest ih =>
    intro st st1 h hi
    unfold walkPages at h
    cases hp : walkFields st p with
    | error e => rw [hp] at h; cases h
    | ok st2 =>
      rw [hp] at h
      exact ih _ _ h (walkFields_keyInv _ _ _ hp hi)

/-- C1 fails on the code: with detected-type confidences 0.80 then 0.95
the last record clears the 0.9 threshold, so the claim says the
document is accepted; the endpoint nevertheless rejects it with the
fixed HTTP 400 validation failure, because the loop raises on the
first record below the threshold. -/
theorem C1_counterexample :
    extract ⟨some "application/pdf", "invoice.pdf"⟩
        (Except.ok ⟨[], [8/10, 95/100]⟩) =
      (Except.error (Outcome.http lowConfidenceErr), []) ∧
    ¬ ((95 : ℚ)/100 < 9/10) ∧
    lowConfidenceErr =
      ⟨400, "Invalid document. Please upload a valid PDF invoice with high confidence."⟩ := by
  refine ⟨?_, by norm_num, rfl⟩
  have hloop : docTypesLoop none [8/10, 95/100] = Except.error lowConfidenceErr := by
    unfold docTypesLoop
    rw [if_pos (by norm_num)]
  unfold extract
  rw [show pdfCheck ⟨some "application/pdf", "invoice.pdf"⟩ = true from rfl]
  unfold extractBody
  simp only [walkPages, hloop, if_true]

/-- C1 amended: the acceptance policy rejects (fixed HTTP 400 failure)
exactly when SOME detected record's confidence is below 0.90 — the
loop raises at the first such record — so both orderings of 0.95 and
0.80 are rejected; when every record clears the threshold the loop
completes and the effective confidence is that of the last record. -/
theorem C1_rejects_iff_any_below (types : List ℚ) :
    ((∃ e, docTypesLoop none types = Except.error e) ↔ ∃ c ∈ types, c < 9/10) ∧
    (∀ e, docTypesLoop none types = Except.error e → e = lowConfidenceErr) ∧
    ((∀ c ∈ types, ¬ c < 9/10) → docTypesLoop none types = Except.ok types.getLast?) ∧
    docTypesLoop none [95/100, 8/10] = Except.error lowConfidenceErr ∧
    docTypesLoop none [8/10, 95/100] = Except.error lowConfidenceErr := by
  refine ⟨docTypesLoop_rejects_iff types none,
    fun e h => docTypesLoop_error types none e h, ?_, ?_, ?_⟩
  · intro hall
    have h := docTypesLoop_ok_last types none hall
    simpa using h
  · simp only [docTypesLoop]
    rw [if_neg (by norm_num), if_pos (by norm_num)]
  · simp only [docTypesLoop]
    rw [if_pos (by norm_num)]

/-- Witness instantiating the amended C1 at concrete inputs: a single
record below the threshold is rejected, a single record above it is
accepted with that record as the effective confidence. -/
theorem C1_rejects_iff_any_below_witness :
    (∃ e, docTypesLoop none [(0 : ℚ)] = Except.error e) ∧
    docTypesLoop none [(1 : ℚ)] = Except.ok (some 1) := by
  constructor
  · exact (C1_rejects_iff_any_below [0]).1.mpr ⟨0, by simp, by norm_num⟩
  · have h := (C1_rejects_iff_any_below [(1 : ℚ)]).2.2.1
      (by intro c hc; simp at hc; subst hc; norm_num)
    simpa using h

/-- C2 meets a code bug rather than the claimed behaviour: with an
accepted PDF upload and a provider response whose detected document
types sequence is empty, the validation loop never assigns the local
confidence_file, and building the result dictionary then reads an
unbound local — the endpoint raises NameError (an uncaught exception,
surfacing as HTTP 500) instead of completing normally with an absent
confidence. -/
theorem C2_empty_types_nameError :
    extract ⟨some "application/pdf", "invoice.pdf"⟩ (Except.ok ⟨[], []⟩) =
      (Except.error (Outcome.pyError PyErr.nameError), []) := rfl

/-- C3: currency coercion removes every dollar sign and comma and the
surrounding whitespace and parses the residue as a decimal number;
empty or None input yields the empty string, an unparseable residue
yields the original input unchanged, and the function is total (the
bare except never lets an exception escape); in particular 4293.55
from the dollar-comma form, the empty string from the empty string,
and the unparseable input passed through. -/
theorem C3_currency_coercion :
    amount_format none = PVal.str "" ∧
    amount_format (some "") = PVal.str "" ∧
    (∀ s me, s ≠ "" → pyFloatSci (pyStrip (stripMoneyChars s.data)) = some me →
      amount_format (some s) = PVal.num (ratOfSci me.1 me.2)) ∧
    (∀ s, s ≠ "" → pyFloatSci (pyStrip (stripMoneyChars s.data)) = none →
      amount_format (some s) = PVal.str s) ∧
    amount_format (some "$4,293.55") = PVal.num ((429355 : ℚ) / 100) ∧
    amount_format (some "N/A") = PVal.str "N/A" := by
  refine ⟨rfl, rfl, ?_, ?_, ?_, rfl⟩
  · intro s me hs hp
    simp only [amount_format, if_neg hs, hp]
  · intro s hs hp
    simp only [amount_format, if_neg hs, hp]
  · have h : amount_format (some "$4,293.55") = PVal.num (ratOfSci 429355 (-2)) := rfl
    rw [h]
    norm_num [ratOfSci]

/-- Witness instantiating C3's conditional clauses at concrete inputs. -/
theorem C3_currency_coercion_witness :
    amount_format (some " 12 ") = PVal.num (ratOfSci 12 0) ∧
    amount_format (some "N.B") = PVal.str "N.B" := by
  constructor
  · exact C3_currency_coercion.2.2.1 " 12 " (12, 0) (by decide) (by decide)
  · exact C3_currency_coercion.2.2.2.1 "N.B" (by decide) (by decide)

/-- C4: date coercion maps a month-abbreviation day year date to the
ISO 8601 midnight UTC timestamp and is a no-op otherwise: a parse
failure returns the original text unchanged and empty or None input
returns the empty string, never raising; in particular the three
examples of the spec. -/
theorem C4_date_coercion :
    format_date none = "" ∧
    format_date (some "") = "" ∧
    (∀ s y m d, s ≠ "" → parseBDY (pyStrip s.data) = some (y, m, d) →
      format_date (some s) = isoMidnightUtc y m d) ∧
    (∀ s, s ≠ "" → parseBDY (pyStrip s.data) = none → format_date (some s) = s) ∧
    format_date (some "Mar 06 2012") = "2012-03-06T00:00:00+00:00" ∧
    format_date (some "not a date") = "not a date" := by
  refine ⟨rfl, rfl, ?_, ?_, by decide, by decide⟩
  · intro s y m d hs hp
    simp only [format_date, if_neg hs, hp]
  · intro s hs hp
    simp only [format_date, if_neg hs, hp]

/-- Witness instantiating C4's conditional clauses at concrete inputs
(a leap-day date that parses, and an invalid calendar date that is
passed through). -/
theorem C4_date_coercion_witness :
    format_date (some "Feb 29 2024") = isoMidnightUtc 2024 2 29 ∧
    format_date (some "Feb 30 2023") = "Feb 30 2023" := by
  constructor
  · exact C4_date_coercion.2.2.1 "Feb 29 2024" 2024 2 29 (by decide) (by decide)
  · exact C4_date_coercion.2.2.2.1 "Feb 30 2023" (by decide) (by decide)

/-- C5: on a composite Items node whose item nodes all expose a value
object, the reconstructor yields exactly one dictionary per item node,
in order, with no filtering (an all-null item still contributes one
entry), each dictionary has at most as many keys as the item has
sub-fields, and the Quantity, UnitPrice and Amount columns receive
currency coercion before storing while every other sub-key stores the
raw accessor value. -/
theorem C5_line_item_reconstruction (nodes : List DocField)
    (h : ∀ n ∈ nodes, n.2 ≠ none) :
    buildItems nodes =
      Except.ok (nodes.map (fun n => buildItem (fvalOrDummy n.2).items)) ∧
    (nodes.map (fun n => buildItem (fvalOrDummy n.2).items)).length = nodes.length ∧
    (∀ subs : List DocField, (buildItem subs).length ≤ subs.length) ∧
    (∀ sub : DocField, itemMoneyKeys.contains (subKeyOf sub.1) = true →
      subStoreVal sub = amount_format (get_value sub.2)) ∧
    (∀ sub : DocField, itemMoneyKeys.contains (subKeyOf sub.1) = false →
      subStoreVal sub = toPVal (get_value sub.2)) := by
  refine ⟨buildItems_ok nodes h, by simp, buildItem_length_le, ?_, ?_⟩
  · intro sub hm
    unfold subStoreVal
    rw [if_pos hm]
  · intro sub hm
    unfold subStoreVal
    rw [if_neg (show ¬ itemMoneyKeys.contains (subKeyOf sub.1) = true by rw [hm]; simp)]

/-- Witness instantiating C5 on the sample item nodes (one row with a
money column and a text column, one all-null row). -/
theorem C5_line_item_reconstruction_witness :
    buildItems sampleNodes =
      Except.ok (sampleNodes.map (fun n => buildItem (fvalOrDummy n.2).items)) ∧
    (sampleNodes.map (fun n => buildItem (fvalOrDummy n.2).items)).length =
      sampleNodes.length ∧
    (∀ subs : List DocField, (buildItem subs).length ≤ subs.length) ∧
    (∀ sub : DocField, itemMoneyKeys.contains (subKeyOf sub.1) = true →
      subStoreVal sub = amount_format (get_value sub.2)) ∧
    (∀ sub : DocField, itemMoneyKeys.contains (subKeyOf sub.1) = false →
      subStoreVal sub = toPVal (get_value sub.2)) :=
  C5_line_item_reconstruction sampleNodes (by simp [sampleNodes])

/-- C6: the tolerant accessor returns None for a null value object;
otherwise the text attribute content when that attribute is present,
else the value attribute content when present, else None. -/
theorem C6_tolerant_accessor :
    get_value none = none ∧
    (∀ t v l, get_value (some (FVal.mk (some t) v l)) = t) ∧
    (∀ w l, get_value (some (FVal.mk none (some w) l)) = w) ∧
    (∀ l, get_value (some (FVal.mk none none l)) = none) :=
  ⟨rfl, fun _ _ _ => rfl, fun _ _ => rfl, fun _ => rfl⟩

/-- Witness instantiating C6 at concrete value objects of each shape. -/
theorem C6_tolerant_accessor_witness :
    get_value (some (FVal.mk (some (some "SuperStore")) none [])) = some "SuperStore" ∧
    get_value (some (FVal.mk none (some (some "SuperStore")) [])) = some "SuperStore" :=
  ⟨C6_tolerant_accessor.2.1 (some "SuperStore") none [],
   C6_tolerant_accessor.2.2.1 (some "SuperStore") []⟩

/-- C7: whenever the walk completes, the key set of the confidences
dictionary equals the key set of the fields dictionary minus the Items
key (with an absent field name inserted as a None key like any other),
and the recorded confidence defaults to zero when the label or its
confidence attribute is missing. -/
theorem C7_confidence_key_set (pages : List (List DocField)) (st : WalkState)
    (h : walkPages ⟨[], []⟩ pages = Except.ok st) :
    (∀ k, k ∈ dkeys st.conf ↔ (k ∈ dkeys st.data ∧ k ≠ some "Items")) ∧
    fieldConfOf none = 0 ∧
    (∀ nm, fieldConfOf (some ⟨nm, none⟩) = 0) := by
  refine ⟨?_, rfl, fun nm => rfl⟩
  exact walkPages_keyInv pages ⟨[], []⟩ st h (by intro k; simp [dkeys])

/-- Witness instantiating C7 on the sample page (one plain field and
one Items field). -/
theorem C7_confidence_key_set_witness :
    (∀ k, k ∈ dkeys sampleWalkSt.conf ↔ (k ∈ dkeys sampleWalkSt.data ∧ k ≠ some "Items")) ∧
    fieldConfOf none = 0 ∧
    (∀ nm, fieldConfOf (some ⟨nm, none⟩) = 0) :=
  C7_confidence_key_set samplePages sampleWalkSt rfl

/-- C8: when the acceptance policy rejects a document, the caller
outcome is exactly the fixed 400 validation failure — a value carrying
only the status and the fixed message, none of the extracted fields,
confidences or line items — and save_inv_extraction is never invoked
(the save log stays empty). -/
theorem C8_rejection_no_leak (u : Upload) (resp : ProviderResponse)
    (st : WalkState) (e : HttpErr)
    (hpdf : pdfCheck u = true)
    (hwalk : walkPages ⟨[], []⟩ resp.pages = Except.ok st)
    (hrej : docTypesLoop none resp.detectedTypes = Except.error e) :
    extract u (Except.ok resp) = (Except.error (Outcome.http lowConfidenceErr), []) ∧
    e = lowConfidenceErr ∧
    lowConfidenceErr.status = 400 ∧
    lowConfidenceErr.detail =
      "Invalid document. Please upload a valid PDF invoice with high confidence." := by
  have he : e = lowConfidenceErr := docTypesLoop_error resp.detectedTypes none e hrej
  subst he
  refine ⟨?_, rfl, rfl, rfl⟩
  unfold extract
  rw [if_pos hpdf]
  simp only [extractBody]
  rw [hwalk, hrej]

/-- Witness instantiating C8 at a concrete rejected document. -/
theorem C8_rejection_no_leak_witness :
    extract ⟨some "application/pdf", "i.pdf"⟩ (Except.ok ⟨[], [0]⟩) =
      (Except.error (Outcome.http lowConfidenceErr), []) ∧
    lowConfidenceErr = lowConfidenceErr ∧
    lowConfidenceErr.status = 400 ∧
    lowConfidenceErr.detail =
      "Invalid document. Please upload a valid PDF invoice with high confidence." :=
  C8_rejection_no_leak ⟨some "application/pdf", "i.pdf"⟩ ⟨[], [0]⟩ ⟨[], []⟩
    lowConfidenceErr rfl rfl
    (by simp only [docTypesLoop]; rw [if_pos (by norm_num)])

/-- C9: the upload validation raises the input-validation error, before
and independently of any provider interaction, exactly when neither the
PDF content type nor a lower-cased .pdf filename suffix is declared;
when at least one is present the endpoint proceeds to the body, which
no longer inspects the upload. -/
theorem C9_pdf_upload_validation (u : Upload) :
    (pdfCheck u = false →
      ∀ p, extract u p = (Except.error (Outcome.http pdfValidationErr), [])) ∧
    (pdfCheck u = true → ∀ p, extract u p = extractBody p) ∧
    (pdfCheck u = true ↔
      (u.contentType = some "application/pdf" ∨
        List.isSuffixOf ".pdf".data (u.filename.data.map asciiLower) = true)) := by
  refine ⟨?_, ?_, ?_⟩
  · intro hf p
    unfold extract
    rw [if_neg (by simp [hf])]
  · intro ht p
    unfold extract
    rw [if_pos ht]
  · simp [pdfCheck]

/-- Witness instantiating C9: a non-PDF upload is rejected regardless
of the provider, an upper-case .PDF filename passes the check. -/
theorem C9_pdf_upload_validation_witness :
    extract ⟨none, "invoice.txt"⟩ (Except.error ()) =
      (Except.error (Outcome.http pdfValidationErr), []) ∧
    extract ⟨none, "INVOICE.PDF"⟩ (Except.error ()) = extractBody (Except.error ()) :=
  ⟨(C9_pdf_upload_validation ⟨none, "invoice.txt"⟩).1 rfl (Except.error ()),
   (C9_pdf_upload_validation ⟨none, "INVOICE.PDF"⟩).2.1 rfl (Except.error ())⟩

/-- C10: when the content type is not the PDF one and the lower-cased
filename does not end in .pdf, the validation error raised carries
status 400 and the exact fixed detail text, and that error value is
equal to the low-confidence rejection error, so the two caller-visible
error classes are indistinguishable by message and status. -/
theorem C10_shared_fixed_message (u : Upload) (p : Except Unit ProviderResponse)
    (hct : u.contentType ≠ some "application/pdf")
    (hfn : List.isSuffixOf ".pdf".data (u.filename.data.map asciiLower) = false) :
    extract u p = (Except.error (Outcome.http pdfValidationErr), []) ∧
    pdfValidationErr.status = 400 ∧
    pdfValidationErr.detail =
      "Invalid document. Please upload a valid PDF invoice with high confidence." ∧
    pdfValidationErr = lowConfidenceErr := by
  have hb : pdfCheck u = false := by
    simp [pdfCheck, hfn, hct]
  refine ⟨?_, rfl, rfl, rfl⟩
  unfold extract
  rw [if_neg (by simp [hb])]

/-- Witness instantiating C10 at a concrete wrong-type upload. -/
theorem C10_shared_fixed_message_witness :
    extract ⟨some "text/plain", "invoice.txt"⟩ (Except.error ()) =
      (Except.error (Outcome.http pdfValidationErr), []) ∧
    pdfValidationErr.status = 400 ∧
    pdfValidationErr.detail =
      "Invalid document. Please upload a valid PDF invoice with high confidence." ∧
    pdfValidationErr = lowConfidenceErr :=
  C10_shared_fixed_message ⟨some "text/plain", "invoice.txt"⟩ (Except.error ())
    (by decide) (by decide)

end InvParser
